import Mathlib

/-!
Verification of the image chooser CGI handler (src/get-photo.py).

Shallow embedding: the Python dictionaries become structures whose optional
keys are `Option` fields (`none` models an absent key); file and network
effects become explicit state passing over a `World`; the hash functions
(`sha1`, `sha1_dict`), the HTTP calls (`requests.get`, `requests.post`) and
the mimetype tables are parameters collected in an `Env`.  Fallible file
reads are modelled by `Option` contents in the `World` and an `Except`
result where the source lets an exception propagate.
-/

set_option autoImplicit false

/-- One image record of the manifest.  In the source this is a `dict` with
optional keys `original_url`, `mime_type`, `cached`, `last_cached`,
`error`; `none` models an absent key.  `error` holds an HTTP status code. -/
structure ImageRecord where
  url : String
  original_url : Option String := none
  mime_type : Option String := none
  cached : Option Bool := none
  last_cached : Option String := none
  error : Option Nat := none
  deriving DecidableEq, Repr

/-- The persisted manifest dict `{hash, id, img}`; the empty dict `{}` used
by `respond` on a failed read is `{ }` (all keys absent, `img` empty: the
code only ever reads `img` after assigning it in that case). -/
structure Manifest where
  hash : Option String := none
  id : Option String := none
  img : List ImageRecord := []
  deriving DecidableEq, Repr

/-- Result of a validation `requests.get` : status code and the optional
Content-Type header. -/
structure FetchResult where
  status : Nat
  contentType : Option String
  deriving DecidableEq, Repr

/-- Result of the `requests.post` to the shrink API: status code, the Date
header, and the parsed body fields `output.url` and `output.type`. -/
structure ShrinkResult where
  status : Nat
  date : String
  outUrl : String
  outType : String
  deriving DecidableEq, Repr

/-- The configuration the code reads: `config['cache-prefix']` (here
`cachePfx`) and `config['api-key']` (`none` models JSON `null`). -/
structure Config where
  cachePfx : String
  apiKey : Option String
  deriving DecidableEq, Repr

/-- Environment: the pure oracles of the embedding.
`hashF` models `sha1` applied to a file's byte content, `dhashF` models
`sha1_dict` applied to a manifest, `fetchO` models the validation
`requests.get`, `shrinkO` the `requests.post` to the shrink API,
`guessExt` `mimetypes.guess_extension`, `guessType`
`mimetypes.guess_type(fn)[0]`, and `choiceIdx` the randomness consumed by
`random.choice`. -/
structure Env where
  hashF : String → String
  dhashF : Manifest → String
  fetchO : String → FetchResult
  shrinkO : String → ShrinkResult
  guessExt : String → String
  guessType : String → Option String
  choiceIdx : Nat

/-- The mutable world: the two persisted files (`none` = missing or
unreadable), the cache directory listing seen by `glob`, and counters of
network calls and file writes performed so far. -/
structure World where
  urlsFile : Option String
  manifestFile : Option Manifest
  cacheDir : List String
  fetchCount : Nat
  writeCount : Nat
  deriving DecidableEq, Repr

/-- The JSON object printed by `give_response`. -/
structure Response where
  status : String
  data : Option ImageRecord
  deriving DecidableEq, Repr

/-- The one exception the embedding lets escape: an IOError from reading a
file outside of any `try` block. -/
inductive Err where
  | ioErr
  deriving DecidableEq, Repr

/-! ### File lines

`update_cache` reads the source URL list with
`set([i.strip('\n') for i in u.readlines()])` and `update_urls` writes it
with `writelines([url + '\n' for url in urls])`.  We model file content as
a `String` and re-implement the line splitting on its character list. -/

/-- Split a character list at every newline; the newline characters are
dropped (they are exactly what `strip('\n')` removes from each
`readlines` line).  Always returns at least one (possibly empty) part. -/
def splitNl : List Char → List (List Char)
  | [] => [[]]
  | c :: cs =>
    if c = '\n' then [] :: splitNl cs
    else
      match splitNl cs with
      | [] => [[c]]
      | p :: ps => (c :: p) :: ps

theorem splitNl_ne_nil (l : List Char) : splitNl l ≠ [] := by
  induction l with
  | nil => simp [splitNl]
  | cons c cs ih =>
    simp only [splitNl]
    split
    · simp
    · split
      · simp
      · simp

theorem no_nl_of_mem_splitNl (l : List Char) (p : List Char)
    (hp : p ∈ splitNl l) : '\n' ∉ p := by
  induction l generalizing p with
  | nil =>
    simp only [splitNl, List.mem_singleton] at hp
    subst hp; simp
  | cons c cs ih =>
    simp only [splitNl] at hp
    by_cases hc : c = '\n'
    · rw [if_pos hc] at hp
      rcases List.mem_cons.mp hp with h | h
      · subst h; simp
      · exact ih p h
    · rw [if_neg hc] at hp
      rcases hsp : splitNl cs with _ | ⟨q, qs⟩
      · exact absurd hsp (splitNl_ne_nil cs)
      · rw [hsp] at hp
        rcases List.mem_cons.mp hp with h | h
        · subst h
          intro hmem
          rcases List.mem_cons.mp hmem with h | h
          · exact hc h.symm
          · exact ih q (by rw [hsp]; exact List.mem_cons_self q qs) h
        · exact ih p (by rw [hsp]; exact List.mem_cons_of_mem q h)

theorem splitNl_append (p rest : List Char) (hp : '\n' ∉ p) :
    splitNl (p ++ '\n' :: rest) = p :: splitNl rest := by
  induction p with
  | nil => simp [splitNl]
  | cons c cs ih =>
    have hc : c ≠ '\n' := fun h => hp (h ▸ List.mem_cons_self c cs)
    have hcs : '\n' ∉ cs := fun h => hp (List.mem_cons_of_mem c h)
    simp only [List.cons_append, splitNl, if_neg hc, List.append_eq]
    rw [ih hcs]

theorem str_mk_data (u : String) : String.mk u.data = u := by
  cases u; rfl

/-- The list of `strip('\n')`-ed lines of a file's content, exactly as
`readlines` produces them: a final empty segment after a trailing newline
is not a line. -/
def fileLines (s : String) : List String :=
  if ((splitNl s.data).map (fun l => String.mk l)).getLast? = some "" then
    ((splitNl s.data).map (fun l => String.mk l)).dropLast
  else
    (splitNl s.data).map (fun l => String.mk l)

theorem no_nl_of_mem_fileLines (s : String) (u : String)
    (hu : u ∈ fileLines s) : '\n' ∉ u.data := by
  have hparts : u ∈ (splitNl s.data).map (fun l => String.mk l) := by
    unfold fileLines at hu
    split at hu
    · exact List.dropLast_subset _ hu
    · exact hu
  rcases List.mem_map.mp hparts with ⟨p, hp, hpu⟩
  have : u.data = p := by rw [← hpu]
  rw [this]
  exact no_nl_of_mem_splitNl s.data p hp

/-- `loadUrls` models
`set([i.strip('\n') for i in u.readlines()])`: the lines, duplicates
collapsed.  (The Python set's iteration order is unspecified; the model
fixes one order, and every theorem about it is order-insensitive.) -/
def loadUrls (s : String) : List String :=
  (fileLines s).dedup

/-- Character content written by
`writelines([url + '\n' for url in urls])`. -/
def saveData : List String → List Char
  | [] => []
  | u :: us => u.data ++ '\n' :: saveData us

/-- `saveUrls` models `update_urls`'s write: each URL followed by a
newline. -/
def saveUrls (urls : List String) : String :=
  String.mk (saveData urls)

theorem splitNl_saveData (urls : List String)
    (h : ∀ u ∈ urls, '\n' ∉ u.data) :
    splitNl (saveData urls) = urls.map (fun u => u.data) ++ [[]] := by
  induction urls with
  | nil => simp [saveData, splitNl]
  | cons u us ih =>
    have hu : '\n' ∉ u.data := h u (List.mem_cons_self u us)
    have hus : ∀ v ∈ us, '\n' ∉ v.data :=
      fun v hv => h v (List.mem_cons_of_mem u hv)
    simp only [saveData, splitNl_append u.data (saveData us) hu, ih hus,
      List.map_cons, List.cons_append]

theorem fileLines_saveUrls (urls : List String)
    (h : ∀ u ∈ urls, '\n' ∉ u.data) :
    fileLines (saveUrls urls) = urls := by
  have hdata : (saveUrls urls).data = saveData urls := rfl
  unfold fileLines
  rw [hdata, splitNl_saveData urls h, List.map_append]
  have hmap : (urls.map (fun u => u.data)).map (fun l => String.mk l)
      = urls := by
    rw [List.map_map]
    have : ∀ u ∈ urls, ((fun l => String.mk l) ∘ fun u => u.data) u = id u :=
      fun u _ => str_mk_data u
    rw [List.map_congr_left this, List.map_id]
  simp only [List.map_cons, List.map_nil]
  rw [List.getLast?_concat, if_pos rfl, List.dropLast_concat, hmap]

/-! ### The program functions (from src/get-photo.py) -/

/-- `os.path.basename`: everything after the last slash. -/
def basename (s : String) : String :=
  String.mk ((s.data.reverse.takeWhile (fun c => c ≠ '/')).reverse)

/-- `Chooser.is_valid`: `'error' not in img`. -/
def is_valid (img : ImageRecord) : Bool :=
  img.error.isNone

/-- `Chooser.valid_urls`: `[img['url'] for img in filter(is_valid, imgs)]`. -/
def valid_urls (imgs : List ImageRecord) : List String :=
  (imgs.filter is_valid).map (fun img => img.url)

/-- `Chooser.with_valid_imgs`: keep only the error-free records. -/
def with_valid_imgs (manifest : Manifest) : Manifest :=
  { manifest with img := manifest.img.filter is_valid }

/-- `Chooser.fetch`: skip a record whose `cached` key is present and true;
otherwise `requests.get(img['url'])` (the second component counts this
network call).  On a non-ok status, set `error` to the status code; on ok,
set `mime_type` to `r.headers.get('Content-Type', 'img/jpeg')`.  Note the
source does not remove a pre-existing `error` key on success. -/
def fetch (e : Env) (img : ImageRecord) : ImageRecord × Nat :=
  if img.cached = some true then (img, 0)
  else
    if (e.fetchO img.url).status ≠ 200 then
      ({ img with error := some (e.fetchO img.url).status }, 1)
    else
      ({ img with
          mime_type := some ((e.fetchO img.url).contentType.getD "img/jpeg") },
        1)

/-- The closure `wrapped` returned by `generate_cached_image(cache_prefix,
auth)`.  Result components: the updated record, the number of network
calls made (the shrink POST and, on success, the asset GET), and the
number of files written (the cached asset).  `img.get('cached', False)`
is `img.cached.getD false`; `os.path.join("cache", fn)` is
`"cache/" ++ fn`; the written name appends
`mimetypes.guess_extension(mime_type)` to the asset's basename. -/
def generate_cached_image (e : Env) (cachePfx : String)
    (img : ImageRecord) : ImageRecord × Nat × Nat :=
  if img.cached.getD false then (img, 0, 0)
  else
    if (e.shrinkO img.url).status ≠ 201 then
      ({ img with
          original_url := some img.url,
          last_cached := some (e.shrinkO img.url).date,
          error := some (e.shrinkO img.url).status },
        1, 0)
    else
      ({ img with
          original_url := some img.url,
          last_cached := some (e.shrinkO img.url).date,
          error := none,
          url := cachePfx ++ ("cache/" ++ basename (e.shrinkO img.url).outUrl
            ++ e.guessExt (e.shrinkO img.url).outType),
          cached := some true },
        2, 1)

/-- `Chooser.update_manifest` without the write: set `id` to
`sha1_dict(manifest)` computed on the manifest as it stands (its old `id`
key included).  The caller records the file write. -/
def update_manifest (e : Env) (manifest : Manifest) : Manifest :=
  { manifest with id := some (e.dhashF manifest) }

/-- The slow path of `Chooser.update_cache`, taken when the stored hash
does not match: store the new hash, read the deduplicated URL set, build
fresh records, append the already-cached images found by
`glob(cache-prefix + "/*")` (record url is `cache-prefix + fn` for the
glob result `fn`), fetch every record, keep the valid ones
(`with_valid_imgs`), write the manifest (`update_manifest`), and rewrite
the URL list file with the records' urls (`update_urls`): two file
writes. -/
def ucRebuild (e : Env) (cfg : Config) (w : World) (poss : Manifest)
    (content : String) : Manifest × World :=
  let fetched :=
    ((loadUrls content).map (fun u => ({ url := u } : ImageRecord))
      ++ w.cacheDir.map (fun fn =>
           ({ url := cfg.cachePfx ++ fn,
              mime_type := e.guessType fn,
              cached := some true } : ImageRecord))).map (fetch e)
  let m2 := update_manifest e (with_valid_imgs
    { poss with hash := some (e.hashF content),
                img := fetched.map (fun p => p.1) })
  (m2,
    { w with
        manifestFile := some m2,
        urlsFile := some (saveUrls (m2.img.map (fun img => img.url))),
        fetchCount := w.fetchCount + (fetched.map (fun p => p.2)).sum,
        writeCount := w.writeCount + 2 })

/-- `Chooser.update_cache`.  `sha1(self.urls_path)` raises IOError when the
file is missing, and nothing catches it: hence the `Except`.  The fast
path (`'hash' in poss and poss['hash'] == urls_hash`) returns with nothing
touched; otherwise the cache is rebuilt (`ucRebuild`). -/
def update_cache (e : Env) (cfg : Config) (w : World) (poss : Manifest) :
    Except Err (Manifest × World) :=
  match w.urlsFile with
  | none => .error .ioErr
  | some content =>
    if poss.hash = some (e.hashF content) then
      .ok (poss, w)
    else
      .ok (ucRebuild e cfg w poss content)

/-- `Chooser.download_uncached`.  When `config['api-key']` is None the
function executes a bare `return`, i.e. it returns Python `None`, not the
manifest: the first component is `none` in that case.  Otherwise every
record goes through the compressor closure and the manifest (errored
records included) is written with a fresh `id`. -/
def download_uncached (e : Env) (cfg : Config) (w : World)
    (manifest : Manifest) : Option Manifest × World :=
  match cfg.apiKey with
  | none => (none, w)
  | some _ =>
    let results := manifest.img.map (generate_cached_image e cfg.cachePfx)
    let m2 := update_manifest e { manifest with img := results.map (fun p => p.1) }
    (some m2,
      { w with
          manifestFile := some m2,
          fetchCount := w.fetchCount + (results.map (fun p => p.2.1)).sum,
          writeCount := w.writeCount + (results.map (fun p => p.2.2)).sum + 1 })

/-- `Chooser.respond`: load the manifest (empty dict on any failure),
run `update_cache` (an IOError there propagates), run `download_uncached`,
then `random.choice` over the valid records of its result — when that
result is Python `None` the selection raises and the handler answers with
`{"status": "failure", "data": null}`, likewise when no valid record
remains. -/
def respond (e : Env) (cfg : Config) (w : World) :
    Except Err (Response × World) :=
  match update_cache e cfg w (w.manifestFile.getD { }) with
  | .error err => .error err
  | .ok (p1, w1) =>
    match download_uncached e cfg w1 p1 with
    | (none, w2) => .ok ({ status := "failure", data := none }, w2)
    | (some p2, w2) =>
      if (p2.img.filter is_valid).isEmpty then
        .ok ({ status := "failure", data := none }, w2)
      else
        .ok ({ status := "success",
               data := (p2.img.filter is_valid)[e.choiceIdx %
                 (p2.img.filter is_valid).length]? },
          w2)

/-! ### Concrete instantiations used by witnesses and counterexamples -/

/-- A concrete environment: identity fingerprint for files, constant
manifest fingerprint, every fetch ok without a Content-Type, every shrink
created. -/
def env0 : Env :=
  { hashF := fun s => s,
    dhashF := fun _ => "mid",
    fetchO := fun _ => { status := 200, contentType := none },
    shrinkO := fun _ =>
      { status := 201, date := "D", outUrl := "http://t/img.png",
        outType := "image/png" },
    guessExt := fun _ => ".png",
    guessType := fun _ => none,
    choiceIdx := 0 }

/-- Like `env0` but the validation fetch declares `image/jpeg`. -/
def envOk : Env :=
  { env0 with
    fetchO := fun _ => { status := 200, contentType := some "image/jpeg" } }

/-- Like `env0` but the shrink API answers 415. -/
def envShrinkFail : Env :=
  { env0 with
    shrinkO := fun _ => { status := 415, date := "D", outUrl := "", outType := "" } }

/-- Environment where fetching "a" succeeds and everything else is 404,
with a manifest fingerprint that depends on the record urls. -/
def envAB : Env :=
  { env0 with
    fetchO := fun u =>
      if u = "a" then { status := 200, contentType := some "image/jpeg" }
      else { status := 404, contentType := none },
    dhashF := fun m => saveUrls (m.img.map (fun r => r.url)) }

def cfgNoKey : Config := { cachePfx := "P/", apiKey := none }

def cfgKey : Config := { cachePfx := "P/", apiKey := some "k" }

/-- World with a one-URL source list and no manifest yet. -/
def wA : World :=
  { urlsFile := some "http://a/x.jpg\n", manifestFile := none,
    cacheDir := [], fetchCount := 0, writeCount := 0 }

/-- World with a two-URL source list and no manifest yet. -/
def wAB : World :=
  { urlsFile := some "a\nb\n", manifestFile := none,
    cacheDir := [], fetchCount := 0, writeCount := 0 }

/-- World whose source URL list file is missing. -/
def wNoUrls : World :=
  { urlsFile := none, manifestFile := none,
    cacheDir := [], fetchCount := 0, writeCount := 0 }

/-! ### Projections over a `respond` result -/

def respStatus (x : Except Err (Response × World)) : Option String :=
  x.toOption.map (fun p => p.1.status)

def respImgs (x : Except Err (Response × World)) : Option (List ImageRecord) :=
  x.toOption.bind (fun p => p.2.manifestFile.map Manifest.img)

def respFileUrls (x : Except Err (Response × World)) : Option (List String) :=
  x.toOption.bind (fun p => p.2.urlsFile.map loadUrls)

def respManifestValidUrls (x : Except Err (Response × World)) :
    Option (List String) :=
  x.toOption.bind (fun p => p.2.manifestFile.map (fun m => valid_urls m.img))

def isOkE : Except Err (Response × World) → Bool
  | .ok _ => true
  | .error _ => false

/-- The result of a non-raising `update_cache` run. -/
def ucD (e : Env) (cfg : Config) (w : World) (m : Manifest) :
    Manifest × World :=
  (update_cache e cfg w m).toOption.getD (m, w)

/-! ### Claims -/

/-- C1: with `api-key` = None, `download_uncached` does not return the
manifest it was given: it executes a bare `return`, i.e. returns Python
None (here `none`), leaving the world untouched.  The spec's contract —
return the manifest unmodified so the stage is a skip — is the evident
intent (the caller immediately assigns the result to its manifest
variable and indexes into it); the bare `return` is the slip. -/
theorem c1_download_uncached_returns_none_without_key :
    download_uncached env0 cfgNoKey wA { img := [{ url := "http://a/x.jpg" }] } =
      (none, wA) := rfl

/-- C2: in scenario B (source list with the single URL "http://a/x.jpg",
validation fetch ok, no API key) the persisted manifest does end with the
one valid uncached record, but `respond` emits a failure response rather
than success: `download_uncached` returned None, and selecting from None
raises the exception that the handler turns into
`{"status": "failure", "data": null}`. -/
theorem c2_respond_failure_despite_valid_record :
    respStatus (respond envOk cfgNoKey wA) = some "failure" ∧
    respImgs (respond envOk cfgNoKey wA) =
      some [{ url := "http://a/x.jpg", mime_type := some "image/jpeg" }] :=
  ⟨rfl, rfl⟩

/-- C6 counterexample: a successful fetch does not remove a pre-existing
`error` key — the source sets `mime_type` on success but never pops
`error`.  Here the fetch of "u" succeeds (status 200) yet the returned
record still carries `error = 404`. -/
theorem c6_counterexample :
    (envOk.fetchO "u").status = 200 ∧
    (fetch envOk { url := "u", error := some 404 }).1.error = some 404 ∧
    (fetch envOk { url := "u", error := some 404 }).1.error ≠ none :=
  ⟨rfl, rfl, by decide⟩

/-- C6 amended: for a non-cached record, `fetch` on an ok status sets
`mime_type` from the declared content type (defaulting to "img/jpeg" when
absent) and leaves every other field — a previously set `error` included
— in place; on a non-ok status it sets `error` to the status code.  One
network call either way. -/
theorem c6_fetch_amended (e : Env) (img : ImageRecord)
    (hc : img.cached ≠ some true) :
    fetch e img =
      if (e.fetchO img.url).status ≠ 200 then
        ({ img with error := some (e.fetchO img.url).status }, 1)
      else
        ({ img with
            mime_type := some ((e.fetchO img.url).contentType.getD "img/jpeg") },
          1) := by
  unfold fetch
  rw [if_neg hc]

theorem c6_fetch_amended_witness :
    (({ url := "u", error := some 404 } : ImageRecord).cached ≠ some true) ∧
    fetch envOk { url := "u", error := some 404 } =
      (if (envOk.fetchO "u").status ≠ 200 then
        ({ url := "u", error := some (envOk.fetchO "u").status }, 1)
      else
        ({ url := "u", error := some 404,
           mime_type := some ((envOk.fetchO "u").contentType.getD "img/jpeg") },
          1)) :=
  ⟨by decide, c6_fetch_amended envOk { url := "u", error := some 404 } (by decide)⟩

/-- C7: a record whose `cached` key is present and true is returned
unmodified by the compressor closure, with no network call and no file
write. -/
theorem c7_generate_cached_image_skips_cached (e : Env) (pfx : String)
    (img : ImageRecord) (h : img.cached = some true) :
    generate_cached_image e pfx img = (img, 0, 0) := by
  unfold generate_cached_image
  rw [h]
  simp

theorem c7_witness :
    ({ url := "u", cached := some true } : ImageRecord).cached = some true ∧
    generate_cached_image env0 "P/" { url := "u", cached := some true } =
      ({ url := "u", cached := some true }, 0, 0) :=
  ⟨rfl, c7_generate_cached_image_skips_cached env0 "P/" _ rfl⟩

/-- C8 counterexample: with two records sharing the url "u", the errored
record's url does appear in the `valid_urls` output (contributed by the
error-free duplicate), so "error present ⇔ excluded" fails as stated for
arbitrary record lists. -/
theorem c8_counterexample :
    is_valid { url := "u", error := some 404 } = false ∧
    "u" ∈ valid_urls [{ url := "u", error := some 404 }, { url := "u" }] := by
  constructor
  · rfl
  · decide

/-- C8 amended: for a list of records with pairwise distinct urls, a
record's url appears in the `valid_urls` output iff the record has no
`error` field. -/
theorem c8_valid_urls_amended (imgs : List ImageRecord) (r : ImageRecord)
    (hn : (imgs.map ImageRecord.url).Nodup) (hr : r ∈ imgs) :
    r.url ∈ valid_urls imgs ↔ r.error = none := by
  constructor
  · intro hmem
    rcases List.mem_map.mp hmem with ⟨a, ha, hau⟩
    have haimgs : a ∈ imgs := List.mem_of_mem_filter ha
    have hval : is_valid a := List.of_mem_filter ha
    have hra : a = r := List.inj_on_of_nodup_map hn haimgs hr hau
    rw [← hra]
    simpa [is_valid, Option.isNone_iff_eq_none] using hval
  · intro he
    exact List.mem_map.mpr
      ⟨r, List.mem_filter.mpr ⟨hr, by simp [is_valid, he]⟩, rfl⟩

theorem c8_valid_urls_amended_witness :
    (([{ url := "a" }, { url := "b", error := some 404 }] :
        List ImageRecord).map ImageRecord.url).Nodup ∧
    (({ url := "a" } : ImageRecord) ∈
      ([{ url := "a" }, { url := "b", error := some 404 }] : List ImageRecord)) ∧
    (({ url := "a" } : ImageRecord).url ∈
        valid_urls [{ url := "a" }, { url := "b", error := some 404 }] ↔
      ({ url := "a" } : ImageRecord).error = none) :=
  ⟨by decide, by decide,
    c8_valid_urls_amended _ _ (by decide) (by decide)⟩

/-- C9: reading the URL set and writing it back reproduces the same set of
URLs, order-insensitively: membership in
`loadUrls (saveUrls (loadUrls s))` coincides with membership in
`loadUrls s`, for every file content `s` (so in particular for every
deduplicated, newline-terminated list). -/
theorem c9_loadUrls_saveUrls_roundTrip (s : String) (u : String) :
    u ∈ loadUrls (saveUrls (loadUrls s)) ↔ u ∈ loadUrls s := by
  unfold loadUrls
  rw [fileLines_saveUrls ((fileLines s).dedup)
      (fun v hv => no_nl_of_mem_fileLines s v (List.mem_dedup.mp hv)),
    List.mem_dedup]

/-- C10: for a non-cached record, a non-created shrink response yields a
record that carries not only `error` (the status code) but also
`original_url` (the prior url) and `last_cached` (the response's Date
header): both are written before the status check. -/
theorem c10_generate_cached_image_error_fields (e : Env) (pfx : String)
    (img : ImageRecord) (hc : img.cached.getD false = false)
    (hs : (e.shrinkO img.url).status ≠ 201) :
    generate_cached_image e pfx img =
      ({ img with
          original_url := some img.url,
          last_cached := some (e.shrinkO img.url).date,
          error := some (e.shrinkO img.url).status }, 1, 0) := by
  unfold generate_cached_image
  rw [hc]
  simp [hs]

theorem c10_witness :
    (({ url := "u" } : ImageRecord).cached.getD false = false) ∧
    ((envShrinkFail.shrinkO "u").status ≠ 201) ∧
    generate_cached_image envShrinkFail "P/" { url := "u" } =
      ({ url := "u", original_url := some "u",
         last_cached := some (envShrinkFail.shrinkO "u").date,
         error := some (envShrinkFail.shrinkO "u").status }, 1, 0) :=
  ⟨rfl, by decide,
    c10_generate_cached_image_error_fields envShrinkFail "P/" _ rfl (by decide)⟩

/-! ### Helper lemmas about the rebuild path and the compression stage -/

theorem ucRebuild_fst_hash (e : Env) (cfg : Config) (w : World)
    (poss : Manifest) (content : String) :
    (ucRebuild e cfg w poss content).1.hash = some (e.hashF content) := rfl

theorem ucRebuild_urlsFile (e : Env) (cfg : Config) (w : World)
    (poss : Manifest) (content : String) :
    (ucRebuild e cfg w poss content).2.urlsFile =
      some (saveUrls ((ucRebuild e cfg w poss content).1.img.map
        (fun r => r.url))) := rfl

theorem ucRebuild_img_valid (e : Env) (cfg : Config) (w : World)
    (poss : Manifest) (content : String) :
    ((ucRebuild e cfg w poss content).1.img.all is_valid) = true := by
  refine List.all_eq_true.mpr (fun r hr => ?_)
  simp only [ucRebuild, update_manifest, with_valid_imgs] at hr
  exact List.of_mem_filter hr

theorem download_uncached_urlsFile (e : Env) (cfg : Config) (w : World)
    (m : Manifest) :
    (download_uncached e cfg w m).2.urlsFile = w.urlsFile := by
  cases hk : cfg.apiKey with
  | none => simp [download_uncached, hk]
  | some k => simp [download_uncached, hk]

/-! ### C3 -/

/-- First `update_cache` run on the two-URL world ("a" fetches ok, "b"
answers 404), starting from the empty manifest. -/
def c3r1 : Manifest × World := ucD envAB cfgNoKey wAB { }

/-- Second `update_cache` run, applied directly to the first run's output
world and manifest: nothing external has touched any file in between. -/
def c3r2 : Manifest × World := ucD envAB cfgNoKey c3r1.2 c3r1.1

/-- C3 counterexample: invoking reconciliation a second time with nothing
but `update_cache` itself having touched the source URL list file is not
a no-op.  The first run rewrote the file (dropping the 404 record "b"),
so the stored hash no longer matches: the second run fetches "a" again
(fetch count 2 → 3), writes the manifest and the URL list file again
(write count 2 → 4), and changes the manifest (its `hash` moves to the
rewritten file's fingerprint). -/
theorem c3_counterexample :
    c3r1.2.fetchCount = 2 ∧ c3r1.2.writeCount = 2 ∧
    c3r2.2.fetchCount = 3 ∧ c3r2.2.writeCount = 4 ∧
    c3r2.1 ≠ c3r1.1 := by
  refine ⟨rfl, rfl, rfl, rfl, ?_⟩
  decide

/-- C3 amended: `update_cache` is idempotent provided the source URL list
file content seen by the second invocation equals the content the first
invocation hashed: the stored hash then matches and the second call takes
the fast path — no fetch, no write, manifest (id included) and world
returned unchanged.  Invoking it twice in a row only satisfies this
proviso when the first run's own rewrite reproduced the file's content
byte for byte (see the counterexample). -/
theorem c3_update_cache_amended (e : Env) (cfg : Config) (w : World)
    (m m1 : Manifest) (w1 : World)
    (h : update_cache e cfg w m = .ok (m1, w1)) :
    update_cache e cfg { w1 with urlsFile := w.urlsFile } m1 =
      .ok (m1, { w1 with urlsFile := w.urlsFile }) := by
  rcases hw : w.urlsFile with _ | content
  · simp only [update_cache, hw] at h
    exact Except.noConfusion h
  · simp only [update_cache, hw] at h
    by_cases hh : m.hash = some (e.hashF content)
    · rw [if_pos hh] at h
      simp only [Except.ok.injEq, Prod.mk.injEq] at h
      obtain ⟨hm, hw1⟩ := h
      subst hm
      subst hw1
      simp only [update_cache]
      rw [if_pos hh]
    · rw [if_neg hh] at h
      simp only [Except.ok.injEq] at h
      have hm1 : (ucRebuild e cfg w m content).1 = m1 := congrArg Prod.fst h
      have hhash : m1.hash = some (e.hashF content) := by
        rw [← hm1]
        exact ucRebuild_fst_hash e cfg w m content
      simp only [update_cache]
      rw [if_pos hhash]

theorem c3_update_cache_amended_witness :
    update_cache envAB cfgNoKey { c3r1.2 with urlsFile := wAB.urlsFile } c3r1.1 =
      .ok (c3r1.1, { c3r1.2 with urlsFile := wAB.urlsFile }) :=
  c3_update_cache_amended envAB cfgNoKey wAB { } c3r1.1 c3r1.2 rfl

/-! ### C4 -/

/-- C4 counterexample: with an API key configured and a compression
success, the respond cycle ends with `status = "success"`, a URL list
file still holding the original remote URL, and a persisted manifest
whose single valid record now points at the local cache path: the two
stores disagree after a successful cycle. -/
theorem c4_counterexample :
    respStatus (respond envOk cfgKey wA) = some "success" ∧
    respFileUrls (respond envOk cfgKey wA) = some ["http://a/x.jpg"] ∧
    respManifestValidUrls (respond envOk cfgKey wA) =
      some ["P/cache/img.png.png"] ∧
    respFileUrls (respond envOk cfgKey wA) ≠
      respManifestValidUrls (respond envOk cfgKey wA) := by
  refine ⟨rfl, rfl, rfl, ?_⟩
  decide

/-- C4 amended: when `update_cache` rebuilds, it leaves the source URL
list file holding exactly the urls of the records of the manifest it
persisted, and those records are all valid; `download_uncached` never
writes that file.  So the two stores agree only with the record urls as
they stood before compression: once compression rewrites a record url to
a local cache path the persisted stores diverge. -/
theorem c4_stores_amended (e : Env) (cfg : Config) (w : World)
    (m m1 m2 : Manifest) (w1 : World) (content : String)
    (hc : w.urlsFile = some content)
    (hh : m.hash ≠ some (e.hashF content))
    (h : update_cache e cfg w m = .ok (m1, w1)) :
    w1.urlsFile = some (saveUrls (m1.img.map (fun r => r.url))) ∧
    (m1.img.all is_valid) = true ∧
    (download_uncached e cfg w1 m2).2.urlsFile = w1.urlsFile := by
  simp only [update_cache, hc] at h
  rw [if_neg hh] at h
  simp only [Except.ok.injEq] at h
  have hm1 : (ucRebuild e cfg w m content).1 = m1 := congrArg Prod.fst h
  have hw1 : (ucRebuild e cfg w m content).2 = w1 := congrArg Prod.snd h
  subst hm1
  subst hw1
  exact ⟨ucRebuild_urlsFile e cfg w m content,
    ucRebuild_img_valid e cfg w m content,
    download_uncached_urlsFile e cfg _ m2⟩

/-- The `update_cache` stage of the C4 witness run. -/
def c4r : Manifest × World := ucD envOk cfgKey wA { }

theorem c4_stores_amended_witness :
    (wA.urlsFile = some "http://a/x.jpg\n") ∧
    (({ } : Manifest).hash ≠ some (envOk.hashF "http://a/x.jpg\n")) ∧
    (c4r.2.urlsFile = some (saveUrls (c4r.1.img.map (fun r => r.url))) ∧
     (c4r.1.img.all is_valid) = true ∧
     (download_uncached envOk cfgKey c4r.2 c4r.1).2.urlsFile =
       c4r.2.urlsFile) :=
  ⟨rfl, by decide,
    c4_stores_amended envOk cfgKey wA { } c4r.1 c4r.1 c4r.2
      "http://a/x.jpg\n" rfl (by decide) rfl⟩

/-! ### C5 -/

/-- C5 counterexample: a missing source URL list file is fatal.  `sha1`
raises IOError inside `update_cache`, outside every `try` block of
`respond`, so the exception propagates to the caller instead of being
recovered with an empty URL set. -/
theorem c5_counterexample :
    respond env0 cfgNoKey wNoUrls = .error Err.ioErr := rfl

/-- C5 amended: `respond` recovers from a failed manifest read (it
substitutes the empty manifest) and from an empty valid set (it emits a
failure-status response), and — within the modelled behavior, where
network calls always return a response — it propagates no exception as
long as the source URL list file is readable.  An unreadable or missing
source URL list file, however, raises an uncaught IOError. -/
theorem c5_respond_amended (e : Env) (cfg : Config) (w : World)
    (content : String) (hc : w.urlsFile = some content) :
    isOkE (respond e cfg w) = true := by
  have hu : ∃ m1 w1,
      update_cache e cfg w (w.manifestFile.getD { }) = .ok (m1, w1) := by
    simp only [update_cache, hc]
    by_cases hh : (w.manifestFile.getD { }).hash = some (e.hashF content)
    · rw [if_pos hh]; exact ⟨_, _, rfl⟩
    · rw [if_neg hh]; exact ⟨_, _, rfl⟩
  obtain ⟨m1, w1, hu⟩ := hu
  simp only [respond, hu]
  rcases hd : download_uncached e cfg w1 m1 with ⟨o, w2⟩
  cases o with
  | none => rfl
  | some p2 =>
    dsimp only
    split
    · rfl
    · rfl

theorem c5_respond_amended_witness :
    (wA.urlsFile = some "http://a/x.jpg\n") ∧
    isOkE (respond env0 cfgNoKey wA) = true :=
  ⟨rfl, c5_respond_amended env0 cfgNoKey wA "http://a/x.jpg\n" rfl⟩
